import Mathlib

/-!
Shallow embedding of the StreamController Google Meet plugin's Chrome
extension core, verified against its specification.

Embedded modules:
* `chrome_extension/src/meeting-tab-state-manager.js` (the multi-instance
  reconciler `MeetingTabStateManager`),
* `chrome_extension/src/streamcontroller-client/auth-manager.js`
  (`AuthManager.signMessage` and the `StreamControllerClient` class:
  `sendState`, `_handleServerMessage`, `_startHeartbeat`, `_stopHeartbeat`),
* `chrome_extension/src/streamcontroller-client/pairing-manager.js`
  (`PairingManager.isAuthorized`, `handleMessage`).

JavaScript specifics that the embedding keeps:
* `Object.keys` on an object whose keys are all array-index strings (the
  tab ids) enumerates them in ascending numeric order; the store of tab
  states is therefore a key-sorted association list.
* `Date.now()` timestamps are natural numbers of milliseconds; JavaScript
  subtraction of timestamps is integer subtraction, so staleness compares
  `(now : Int) - last_updated` against the timeout.
* The truthiness test `storageData.activeMeetingTabId && ...` treats both
  `null` and the tab id `0` as false.
-/

namespace GoogleMeetPlugin

/-- The per-tab meeting state reported by the content script; field set and
order follow `NULL_STATE` in `meeting-tab-state-manager.js`. -/
structure MeetingState where
  mic_enabled : Bool
  camera_enabled : Bool
  hand_raised : Bool
  in_meeting : Bool
  meeting_id : Option String
  meeting_name : Option String
  participant_count : Nat
deriving DecidableEq, Repr

/-- `NULL_STATE` from `meeting-tab-state-manager.js` lines 19-27: the default
state when no meetings are active. -/
def NULL_STATE : MeetingState :=
  { mic_enabled := false
    camera_enabled := false
    hand_raised := false
    in_meeting := false
    meeting_id := none
    meeting_name := none
    participant_count := 0 }

/-- `TAB_STATE_TIMEOUT` (line 14): staleness timeout in milliseconds. -/
def TAB_STATE_TIMEOUT : Nat := 60000

/-- `CLEANUP_INTERVAL` (line 15): period of the cleanup sweep in
milliseconds. -/
def CLEANUP_INTERVAL : Nat := 5000

/-- One entry of `storageData.tabStates`: the object written by
`updateTabState` lines 70-74. -/
structure TabEntry where
  tabId : Nat
  state : MeetingState
  last_updated : Nat
deriving DecidableEq, Repr

/-- The persisted storage structure (`_readStorage` default, lines 167-170).
`tabStates` is a JavaScript object keyed by tab id; since tab ids are
array-index strings, `Object.keys` enumerates them in ascending numeric
order, which we represent as a key-sorted association list. -/
structure StorageData where
  tabStates : List (Nat × TabEntry)
  activeMeetingTabId : Option Nat
deriving DecidableEq, Repr

/-- The empty storage returned by `_readStorage` when nothing is stored. -/
def emptyStorage : StorageData := ⟨[], none⟩

/-- Property access `tabStates[id]`: first (only) entry with the given key. -/
def lookupTab : List (Nat × TabEntry) → Nat → Option TabEntry
  | [], _ => none
  | (k, v) :: rest, id => if k = id then some v else lookupTab rest id

/-- Assignment `tabStates[tabId] = entry` on the key-sorted representation:
replaces the entry at an existing key, otherwise inserts keeping keys in
ascending order (JavaScript integer keys enumerate in ascending order no
matter when they were inserted). -/
def upsertTab : List (Nat × TabEntry) → Nat → TabEntry → List (Nat × TabEntry)
  | [], k, v => [(k, v)]
  | (k', v') :: rest, k, v =>
    if k < k' then (k, v) :: (k', v') :: rest
    else if k = k' then (k, v) :: rest
    else (k', v') :: upsertTab rest k v

/-- `_findActiveMeetingTabIdFromStates` (lines 229-237): the first tab in
`Object.keys` enumeration order (ascending tab id) whose state has
`in_meeting` set. -/
def findActiveMeetingTabIdFromStates : List (Nat × TabEntry) → Option Nat
  | [] => none
  | (k, v) :: rest =>
    if v.state.in_meeting then some k else findActiveMeetingTabIdFromStates rest

/-- `getCurrentState` (lines 95-104). The JavaScript guard
`storageData.activeMeetingTabId && storageData.tabStates[...]` is falsy when
the id is `null` or `0`, and when the lookup misses. -/
def getCurrentState (s : StorageData) : MeetingState :=
  match s.activeMeetingTabId with
  | none => NULL_STATE
  | some id =>
    if id = 0 then NULL_STATE
    else
      match lookupTab s.tabStates id with
      | some e => e.state
      | none => NULL_STATE

/-- The staleness test of `_cleanStaleStates` line 200:
`now - state.last_updated > timeout`, with JavaScript (integer)
subtraction. -/
def isStaleEntry (timeout now : Nat) (e : TabEntry) : Bool :=
  (now : Int) - (e.last_updated : Int) > (timeout : Int)

/-! JSON values and `JSON.stringify`, used for the state-change comparison
`JSON.stringify(previousState) !== JSON.stringify(newState)` and for the
JWT encoding in `AuthManager.signMessage`. -/

/-- A JSON value. -/
inductive Jval where
  | jnull
  | jbool (b : Bool)
  | jnum (n : Int)
  | jstr (s : String)
  | jarr (elems : List Jval)
  | jobj (fields : List (String × Jval))

/-- Escaping of one character inside a JSON string literal, as
`JSON.stringify` performs it (the characters our states and payloads carry). -/
def jescapeChar (c : Char) : String :=
  if c = '"' then "\\\""
  else if c = '\\' then "\\\\"
  else if c = '\n' then "\\n"
  else if c = '\r' then "\\r"
  else if c = '\t' then "\\t"
  else String.singleton c

/-- A JSON string literal: quotes around the escaped characters. -/
def jquote (s : String) : String :=
  "\"" ++ String.join (s.toList.map jescapeChar) ++ "\""

mutual

/-- `JSON.stringify` on a JSON value. -/
def jstringify : Jval → String
  | .jnull => "null"
  | .jbool true => "true"
  | .jbool false => "false"
  | .jnum n => toString n
  | .jstr s => jquote s
  | .jarr xs => "[" ++ jstringifyElems xs ++ "]"
  | .jobj fs => "\x7b" ++ jstringifyFields fs ++ "\x7d"

/-- Comma-separated serialization of array elements. -/
def jstringifyElems : List Jval → String
  | [] => ""
  | [x] => jstringify x
  | x :: y :: rest => jstringify x ++ "," ++ jstringifyElems (y :: rest)

/-- Comma-separated serialization of object fields. -/
def jstringifyFields : List (String × Jval) → String
  | [] => ""
  | [(k, v)] => jquote k ++ ":" ++ jstringify v
  | (k, v) :: f :: rest =>
    jquote k ++ ":" ++ jstringify v ++ "," ++ jstringifyFields (f :: rest)

end

/-- The JSON object a `MeetingState` is stored and serialized as; field
order follows `NULL_STATE` and the content script's state object. -/
def stateToJval (st : MeetingState) : Jval :=
  .jobj
    [("mic_enabled", .jbool st.mic_enabled),
     ("camera_enabled", .jbool st.camera_enabled),
     ("hand_raised", .jbool st.hand_raised),
     ("in_meeting", .jbool st.in_meeting),
     ("meeting_id", (st.meeting_id.map Jval.jstr).getD .jnull),
     ("meeting_name", (st.meeting_name.map Jval.jstr).getD .jnull),
     ("participant_count", .jnum st.participant_count)]

/-- `JSON.stringify` of a meeting state, the quantity `updateTabState` and
`_cleanStaleStates` compare to decide whether to emit `state-changed`. -/
def serializeState (st : MeetingState) : String :=
  jstringify (stateToJval st)

/-- `_cleanStaleStates` (lines 194-221): drop every entry with
`now - last_updated > timeout`; if anything was dropped, recompute the
active id and emit `state-changed` when the serialized current state
changed. Returns the new storage and the list of emitted events.
`previousState` is read from storage before the deletions are written
back, so it equals `getCurrentState` of the old storage. -/
def cleanStaleStates (timeout now : Nat) (s : StorageData) :
    StorageData × List MeetingState :=
  let kept := s.tabStates.filter (fun p => !isStaleEntry timeout now p.2)
  let deleted := s.tabStates.any (fun p => isStaleEntry timeout now p.2)
  if deleted then
    let previousState := getCurrentState s
    let s' : StorageData := ⟨kept, findActiveMeetingTabIdFromStates kept⟩
    let newState := getCurrentState s'
    (s', if serializeState previousState ≠ serializeState newState
         then [newState] else [])
  else (s, [])

/-- The part of `updateTabState` (lines 63-88) after its initial
`_cleanStaleStates` call: record the report, recompute the active id,
emit `state-changed` when the serialized current state changed. -/
def updateStep (now tabId : Nat) (st : MeetingState) (s : StorageData) :
    StorageData × List MeetingState :=
  let previousState := getCurrentState s
  let states' := upsertTab s.tabStates tabId ⟨tabId, st, now⟩
  let s' : StorageData := ⟨states', findActiveMeetingTabIdFromStates states'⟩
  let newState := getCurrentState s'
  (s', if serializeState previousState ≠ serializeState newState
       then [newState] else [])

/-- `updateTabState` (lines 59-89): first the stale sweep, then the update
step; events of both phases are emitted in order. -/
def updateTabState (timeout now tabId : Nat) (st : MeetingState)
    (s : StorageData) : StorageData × List MeetingState :=
  let r1 := cleanStaleStates timeout now s
  let r2 := updateStep now tabId st r1.1
  (r2.1, r1.2 ++ r2.2)

/-- `init` (lines 48-51): clean stale states on startup. -/
def initManager (timeout now : Nat) (s : StorageData) :
    StorageData × List MeetingState :=
  cleanStaleStates timeout now s

/-- Modelled from the spec (for comparison with
`findActiveMeetingTabIdFromStates`): "the authoritative instance is the
first instance (by arrival order among currently-live instances) whose
last report indicates an active session; ties are broken by earliest
last_seen_at". `arrivals` lists the per-instance entries in arrival order;
arrival order is strict, so the `last_seen_at` tie-break never fires. -/
def specAuthoritativeByArrival (timeout now : Nat)
    (arrivals : List (Nat × TabEntry)) : Option Nat :=
  match arrivals.filter
      (fun p =>
        decide ((now : Int) - (p.2.last_updated : Int) < (timeout : Int))
          && p.2.state.in_meeting) with
  | [] => none
  | p :: _ => some p.1

/-! Helper lemmas about the tab-state store. -/

/-- The representation invariant of the JavaScript object `tabStates`:
its integer keys are enumerated (hence stored here) in strictly ascending
order. -/
def SortedKeys (ts : List (Nat × TabEntry)) : Prop :=
  ts.Pairwise (fun a b => a.1 < b.1)

theorem lookupTab_mem {ts : List (Nat × TabEntry)} {id : Nat} {e : TabEntry}
    (h : lookupTab ts id = some e) : (id, e) ∈ ts := by
  induction ts with
  | nil => simp [lookupTab] at h
  | cons p rest ih =>
    obtain ⟨k, v⟩ := p
    simp only [lookupTab] at h
    split at h
    · next hk =>
      cases h
      subst hk
      exact List.mem_cons_self _ _
    · exact List.mem_cons_of_mem _ (ih h)

theorem mem_lookupTab {ts : List (Nat × TabEntry)} (hs : SortedKeys ts)
    {id : Nat} {e : TabEntry} (h : (id, e) ∈ ts) :
    lookupTab ts id = some e := by
  induction ts with
  | nil => simp at h
  | cons p rest ih =>
    obtain ⟨k, v⟩ := p
    cases hs with
    | cons hhead htail =>
      rcases List.mem_cons.mp h with h1 | h1
      · cases h1
        simp [lookupTab]
      · have hk : k ≠ id := by
          have := hhead _ h1
          simp only at this
          omega
        simpa [lookupTab, hk] using ih htail h1

theorem findActive_mem {ts : List (Nat × TabEntry)} {id : Nat}
    (h : findActiveMeetingTabIdFromStates ts = some id) :
    ∃ e, (id, e) ∈ ts ∧ e.state.in_meeting = true := by
  induction ts with
  | nil => simp [findActiveMeetingTabIdFromStates] at h
  | cons p rest ih =>
    obtain ⟨k, v⟩ := p
    simp only [findActiveMeetingTabIdFromStates] at h
    split at h
    · next hm =>
      cases h
      exact ⟨v, List.mem_cons_self _ _, hm⟩
    · obtain ⟨e, he, hm⟩ := ih h
      exact ⟨e, List.mem_cons_of_mem _ he, hm⟩

theorem findActive_lookupTab {ts : List (Nat × TabEntry)} (hs : SortedKeys ts)
    {id : Nat} (h : findActiveMeetingTabIdFromStates ts = some id) :
    ∃ e, lookupTab ts id = some e ∧ e.state.in_meeting = true := by
  obtain ⟨e, hmem, hm⟩ := findActive_mem h
  exact ⟨e, mem_lookupTab hs hmem, hm⟩

theorem findActive_minimal {ts : List (Nat × TabEntry)} (hs : SortedKeys ts)
    {id : Nat} (h : findActiveMeetingTabIdFromStates ts = some id) :
    ∀ k e, (k, e) ∈ ts → e.state.in_meeting = true → id ≤ k := by
  induction ts with
  | nil => simp [findActiveMeetingTabIdFromStates] at h
  | cons p rest ih =>
    obtain ⟨k0, v0⟩ := p
    cases hs with
    | cons hhead htail =>
      simp only [findActiveMeetingTabIdFromStates] at h
      split at h
      · cases h
        intro k e hmem hm
        rcases List.mem_cons.mp hmem with h1 | h1
        · cases h1
          exact le_refl _
        · exact le_of_lt (hhead _ h1)
      · next hnm =>
        intro k e hmem hm
        rcases List.mem_cons.mp hmem with h1 | h1
        · cases h1
          exact absurd hm hnm
        · exact ih htail h k e h1 hm

theorem mem_upsertTab {ts : List (Nat × TabEntry)} {k : Nat} {v : TabEntry}
    {p : Nat × TabEntry} (h : p ∈ upsertTab ts k v) :
    p = (k, v) ∨ p ∈ ts := by
  induction ts with
  | nil => simpa [upsertTab] using h
  | cons q rest ih =>
    obtain ⟨k', v'⟩ := q
    simp only [upsertTab] at h
    split at h
    · rcases List.mem_cons.mp h with h1 | h1
      · exact Or.inl h1
      · exact Or.inr h1
    · split at h
      · rcases List.mem_cons.mp h with h1 | h1
        · exact Or.inl h1
        · exact Or.inr (List.mem_cons_of_mem _ h1)
      · rcases List.mem_cons.mp h with h1 | h1
        · exact Or.inr (by rw [h1]; exact List.mem_cons_self _ _)
        · rcases ih h1 with h2 | h2
          · exact Or.inl h2
          · exact Or.inr (List.mem_cons_of_mem _ h2)

theorem sortedKeys_upsertTab {ts : List (Nat × TabEntry)} (hs : SortedKeys ts)
    (k : Nat) (v : TabEntry) : SortedKeys (upsertTab ts k v) := by
  induction ts with
  | nil => simp [upsertTab, SortedKeys]
  | cons q rest ih =>
    obtain ⟨k', v'⟩ := q
    cases hs with
    | cons hhead htail =>
      simp only [upsertTab]
      split
      · next hlt =>
        refine List.Pairwise.cons ?_ (List.Pairwise.cons hhead htail)
        intro b hb
        rcases List.mem_cons.mp hb with h1 | h1
        · rw [h1]; exact hlt
        · exact lt_trans hlt (hhead _ h1)
      · split
        · next hnlt heq =>
          subst heq
          exact List.Pairwise.cons hhead htail
        · next hnlt hne =>
          have hk : k' < k := by omega
          refine List.Pairwise.cons ?_ (ih htail)
          intro b hb
          rcases mem_upsertTab hb with h1 | h1
          · rw [h1]; exact hk
          · exact hhead _ h1

theorem sortedKeys_filter {ts : List (Nat × TabEntry)} (hs : SortedKeys ts)
    (p : Nat × TabEntry → Bool) : SortedKeys (ts.filter p) :=
  List.Pairwise.sublist (List.filter_sublist ts) hs

/-- The invariant relating `activeMeetingTabId` to the stored tab states. -/
def ReconInv (s : StorageData) : Prop :=
  SortedKeys s.tabStates ∧
    ∀ id, s.activeMeetingTabId = some id →
      ∃ e, lookupTab s.tabStates id = some e ∧ e.state.in_meeting = true

theorem reconInv_empty : ReconInv emptyStorage :=
  ⟨List.Pairwise.nil, fun _ h => by simp [emptyStorage] at h⟩

theorem cleanStaleStates_fst (timeout now : Nat) (s : StorageData) :
    (cleanStaleStates timeout now s).1 =
      if s.tabStates.any (fun p => isStaleEntry timeout now p.2) then
        ⟨s.tabStates.filter (fun p => !isStaleEntry timeout now p.2),
         findActiveMeetingTabIdFromStates
           (s.tabStates.filter (fun p => !isStaleEntry timeout now p.2))⟩
      else s := by
  by_cases hdel : s.tabStates.any (fun p => isStaleEntry timeout now p.2) = true
  · simp [cleanStaleStates, hdel]
  · simp [cleanStaleStates, hdel]

theorem updateStep_fst (now tabId : Nat) (st : MeetingState) (s : StorageData) :
    (updateStep now tabId st s).1 =
      ⟨upsertTab s.tabStates tabId ⟨tabId, st, now⟩,
       findActiveMeetingTabIdFromStates
         (upsertTab s.tabStates tabId ⟨tabId, st, now⟩)⟩ := rfl

theorem reconInv_clean (timeout now : Nat) {s : StorageData} (h : ReconInv s) :
    ReconInv (cleanStaleStates timeout now s).1 := by
  obtain ⟨hs, hact⟩ := h
  rw [cleanStaleStates_fst]
  by_cases hdel : s.tabStates.any (fun p => isStaleEntry timeout now p.2) = true
  · rw [if_pos hdel]
    refine ⟨sortedKeys_filter hs _, ?_⟩
    intro id hid
    exact findActive_lookupTab (sortedKeys_filter hs _) hid
  · rw [if_neg hdel]
    exact ⟨hs, hact⟩

theorem reconInv_updateStep (now tabId : Nat) (st : MeetingState)
    {s : StorageData} (h : SortedKeys s.tabStates) :
    ReconInv (updateStep now tabId st s).1 := by
  rw [updateStep_fst]
  have hs' : SortedKeys (upsertTab s.tabStates tabId ⟨tabId, st, now⟩) :=
    sortedKeys_upsertTab h tabId _
  refine ⟨hs', ?_⟩
  intro id hid
  exact findActive_lookupTab hs' hid

theorem reconInv_updateTabState (timeout now tabId : Nat) (st : MeetingState)
    {s : StorageData} (h : ReconInv s) :
    ReconInv (updateTabState timeout now tabId st s).1 := by
  have h1 := reconInv_clean timeout now h
  exact reconInv_updateStep now tabId st h1.1

theorem getCurrentState_nil {s : StorageData} (h : s.tabStates = []) :
    getCurrentState s = NULL_STATE := by
  cases hs : s.activeMeetingTabId with
  | none => simp [getCurrentState, hs]
  | some id =>
    by_cases h0 : id = 0 <;> simp [getCurrentState, hs, h0, h, lookupTab]

theorem getCurrentState_cases {s : StorageData} (h : ReconInv s) :
    getCurrentState s = NULL_STATE ∨
      ∃ id e, lookupTab s.tabStates id = some e ∧ e.state.in_meeting = true ∧
        getCurrentState s = e.state := by
  obtain ⟨-, hact⟩ := h
  cases hs : s.activeMeetingTabId with
  | none => exact Or.inl (by simp [getCurrentState, hs])
  | some id =>
    by_cases h0 : id = 0
    · exact Or.inl (by simp [getCurrentState, hs, h0])
    · obtain ⟨e, hl, hm⟩ := hact id hs
      exact Or.inr ⟨id, e, hl, hm, by simp [getCurrentState, hs, h0, hl]⟩

theorem cleanStaleStates_snd (timeout now : Nat) (s : StorageData) :
    (cleanStaleStates timeout now s).2 =
      if s.tabStates.any (fun p => isStaleEntry timeout now p.2) then
        (if serializeState (getCurrentState s)
            ≠ serializeState (getCurrentState (cleanStaleStates timeout now s).1)
         then [getCurrentState (cleanStaleStates timeout now s).1] else [])
      else [] := by
  by_cases hdel : s.tabStates.any (fun p => isStaleEntry timeout now p.2) = true <;>
    simp [cleanStaleStates, cleanStaleStates_fst, hdel]

theorem emit_aux {a b : String} {ev : MeetingState} :
    ((if a ≠ b then [ev] else []) ≠ [] ↔ a ≠ b) := by
  by_cases h : a ≠ b <;> simp [h]

/-- A concrete in-meeting report, used at concrete inputs below. -/
def sampleActiveState : MeetingState :=
  { mic_enabled := true
    camera_enabled := false
    hand_raised := false
    in_meeting := true
    meeting_id := some "abc-defg-hij"
    meeting_name := some "Standup"
    participant_count := 3 }

/-- A concrete two-instance store satisfying the reconciler invariant. -/
def sampleStore2 : StorageData :=
  ⟨[(3, ⟨3, sampleActiveState, 1001⟩), (5, ⟨5, sampleActiveState, 1000⟩)],
   some 3⟩

theorem reconInv_sampleStore2 : ReconInv sampleStore2 := by
  constructor
  · simp [sampleStore2, SortedKeys]
  · intro id hid
    have h3 : id = 3 := by simpa [sampleStore2] using hid.symm
    subst h3
    exact ⟨_, rfl, rfl⟩

/-- C1, counterexample: two live instances both reporting an active
session, tab 5 arriving (and last seen) before tab 3. The spec's rule
(first by arrival order) picks tab 5, but
`_findActiveMeetingTabIdFromStates` walks `Object.keys` enumeration order
(ascending numeric tab id) and picks tab 3, with no `last_seen_at`
tie-break anywhere in the code. -/
theorem authoritative_by_arrival_counterexample :
    (updateTabState 60000 1001 3 sampleActiveState
        ((updateTabState 60000 1000 5 sampleActiveState
            emptyStorage).1)).1.activeMeetingTabId = some 3
    ∧ specAuthoritativeByArrival 60000 1001
        [(5, ⟨5, sampleActiveState, 1000⟩), (3, ⟨3, sampleActiveState, 1001⟩)]
        = some 5
    ∧ some 3 ≠ (some 5 : Option Nat) := by
  refine ⟨by decide, by decide, by decide⟩

/-- C1 (amended): the authoritative instance chosen by
`_findActiveMeetingTabIdFromStates` (used by `updateTabState` and the
cleanup sweep) is the stored instance with the smallest tab id among those
whose report has `in_meeting` set — `Object.keys` enumeration order, not
arrival order, and with no `last_seen_at` tie-break — and the derived
state always equals exactly one stored instance's report (or the
`NULL_STATE` sentinel), never a merge of two. -/
theorem authoritative_first_by_ascending_id (s : StorageData)
    (hinv : ReconInv s) (id : Nat)
    (h : findActiveMeetingTabIdFromStates s.tabStates = some id) :
    (∃ e, lookupTab s.tabStates id = some e ∧ e.state.in_meeting = true) ∧
    (∀ k e, (k, e) ∈ s.tabStates → e.state.in_meeting = true → id ≤ k) ∧
    (getCurrentState s = NULL_STATE ∨
      ∃ id' e, lookupTab s.tabStates id' = some e ∧
        getCurrentState s = e.state) := by
  refine ⟨findActive_lookupTab hinv.1 h, findActive_minimal hinv.1 h, ?_⟩
  rcases getCurrentState_cases hinv with h1 | ⟨id', e, hl, -, hgc⟩
  · exact Or.inl h1
  · exact Or.inr ⟨id', e, hl, hgc⟩

/-- Witness for the amended C1 theorem at the concrete two-instance
store. -/
theorem authoritative_first_by_ascending_id_witness :
    ∃ e, lookupTab sampleStore2.tabStates 3 = some e ∧
      e.state.in_meeting = true :=
  (authoritative_first_by_ascending_id sampleStore2 reconInv_sampleStore2
    3 rfl).1

/-- C3: whenever no stored report is live — every entry is stale at the
sweep, or none is present — the state derived after `_cleanStaleStates`
is the explicit `NULL_STATE` sentinel (with `in_meeting = false`,
`meeting_id = null`, `participant_count = 0`) and never the last
non-empty instance report. -/
theorem all_stale_resets_to_null_state (timeout now : Nat) (s : StorageData)
    (h : ∀ p ∈ s.tabStates, isStaleEntry timeout now p.2 = true) :
    getCurrentState (cleanStaleStates timeout now s).1 = NULL_STATE ∧
    NULL_STATE.in_meeting = false ∧ NULL_STATE.meeting_id = none ∧
    NULL_STATE.participant_count = 0 ∧
    (∀ p ∈ s.tabStates, p.2.state.in_meeting = true →
      getCurrentState (cleanStaleStates timeout now s).1 ≠ p.2.state) := by
  have hfilter :
      s.tabStates.filter (fun p => !isStaleEntry timeout now p.2) = [] := by
    rw [List.filter_eq_nil_iff]
    intro a ha
    simp [h a ha]
  have hmain :
      getCurrentState (cleanStaleStates timeout now s).1 = NULL_STATE := by
    rw [cleanStaleStates_fst]
    by_cases hdel :
        s.tabStates.any (fun p => isStaleEntry timeout now p.2) = true
    · rw [if_pos hdel]
      exact getCurrentState_nil hfilter
    · rw [if_neg hdel]
      have hnil : s.tabStates = [] := by
        rcases hts : s.tabStates with _ | ⟨p, rest⟩
        · rfl
        · exact absurd (List.any_eq_true.mpr
            ⟨p, hts ▸ List.mem_cons_self _ _,
             h p (hts ▸ List.mem_cons_self _ _)⟩) hdel
      exact getCurrentState_nil hnil
  refine ⟨hmain, rfl, rfl, rfl, ?_⟩
  intro p hp hm heq
  rw [hmain] at heq
  have hfield : NULL_STATE.in_meeting = p.2.state.in_meeting :=
    congrArg MeetingState.in_meeting heq
  rw [hm] at hfield
  simp [NULL_STATE] at hfield

/-- Witness for the C3 theorem: a store holding one stale in-meeting
report resets to the sentinel. -/
theorem all_stale_resets_to_null_state_witness :
    getCurrentState (cleanStaleStates 60000 100000
      ⟨[(5, ⟨5, sampleActiveState, 0⟩)], some 5⟩).1 = NULL_STATE :=
  (all_stale_resets_to_null_state 60000 100000
    ⟨[(5, ⟨5, sampleActiveState, 0⟩)], some 5⟩ (by decide)).1

/-- C4, counterexample: a report whose age is exactly the staleness
timeout. The claim's liveness condition `now - last_seen_at < timeout`
is false, yet the sweep (`now - last_updated > timeout`) keeps the
entry. -/
theorem staleness_boundary_counterexample :
    (cleanStaleStates 60000 60000
        ⟨[(7, ⟨7, sampleActiveState, 0⟩)], some 7⟩).1
      = ⟨[(7, ⟨7, sampleActiveState, 0⟩)], some 7⟩
    ∧ ¬(((60000 : Nat) : Int) - ((0 : Nat) : Int) < ((60000 : Nat) : Int)) :=
  ⟨rfl, by decide⟩

/-- C4 (amended): `TAB_STATE_TIMEOUT` is 60000 ms (60 s) and
`CLEANUP_INTERVAL` is 5000 ms (5 s); a stored report survives the sweep
exactly when `now - last_updated ≤ staleness_timeout` (non-strict: a
report exactly `timeout` old is still kept), and whenever the sweep
evicted anything it recomputes the authoritative instance from the
surviving states. -/
theorem sweep_keeps_iff_within_timeout (timeout now : Nat) (s : StorageData) :
    TAB_STATE_TIMEOUT = 60000 ∧ CLEANUP_INTERVAL = 5000 ∧
    (∀ p, p ∈ (cleanStaleStates timeout now s).1.tabStates ↔
        p ∈ s.tabStates ∧
          (now : Int) - (p.2.last_updated : Int) ≤ (timeout : Int)) ∧
    ((∃ p ∈ s.tabStates, isStaleEntry timeout now p.2 = true) →
      (cleanStaleStates timeout now s).1.activeMeetingTabId
        = findActiveMeetingTabIdFromStates
            (cleanStaleStates timeout now s).1.tabStates) := by
  refine ⟨rfl, rfl, ?_, ?_⟩
  · intro p
    rw [cleanStaleStates_fst]
    by_cases hdel :
        s.tabStates.any (fun q => isStaleEntry timeout now q.2) = true
    · rw [if_pos hdel]
      simp [List.mem_filter, isStaleEntry, not_lt]
    · rw [if_neg hdel]
      have h' : ∀ (x : Nat) (y : TabEntry), (x, y) ∈ s.tabStates →
          isStaleEntry timeout now y = false := by simpa using hdel
      have hall : ∀ q ∈ s.tabStates, isStaleEntry timeout now q.2 = false :=
        fun q hq => h' q.1 q.2 hq
      constructor
      · intro hp
        refine ⟨hp, ?_⟩
        have := hall p hp
        simpa [isStaleEntry, not_lt] using this
      · exact And.left
  · rintro ⟨p, hp, hstale⟩
    have hdel : s.tabStates.any (fun q => isStaleEntry timeout now q.2) = true :=
      List.any_eq_true.mpr ⟨p, hp, hstale⟩
    rw [cleanStaleStates_fst, if_pos hdel]

/-- Witness for the amended C4 theorem: under the boundary store, the
kept-iff-within-timeout equivalence and the recompute clause hold at a
concrete evicting sweep. -/
theorem sweep_keeps_iff_within_timeout_witness :
    (cleanStaleStates 60000 100000
        ⟨[(5, ⟨5, sampleActiveState, 0⟩)], some 5⟩).1.activeMeetingTabId
      = findActiveMeetingTabIdFromStates
          (cleanStaleStates 60000 100000
            ⟨[(5, ⟨5, sampleActiveState, 0⟩)], some 5⟩).1.tabStates :=
  (sweep_keeps_iff_within_timeout 60000 100000
    ⟨[(5, ⟨5, sampleActiveState, 0⟩)], some 5⟩).2.2.2
    ⟨(5, ⟨5, sampleActiveState, 0⟩), by decide, by decide⟩

/-- C7: both for the sweep (`_cleanStaleStates`) and for the update step
of `updateTabState`, a `state-changed` event is emitted exactly when the
serialized derived state after the operation differs from the serialized
derived state before it; `updateTabState` is the sweep followed by the
update step, so re-reporting a state that leaves the aggregate unchanged
emits nothing. -/
theorem emit_iff_serialized_changed (timeout now tabId : Nat)
    (st : MeetingState) (s : StorageData) :
    ((cleanStaleStates timeout now s).2 ≠ [] ↔
      serializeState (getCurrentState s)
        ≠ serializeState (getCurrentState (cleanStaleStates timeout now s).1)) ∧
    ((updateStep now tabId st s).2 ≠ [] ↔
      serializeState (getCurrentState s)
        ≠ serializeState (getCurrentState (updateStep now tabId st s).1)) ∧
    (updateTabState timeout now tabId st s).2
      = (cleanStaleStates timeout now s).2
        ++ (updateStep now tabId st (cleanStaleStates timeout now s).1).2 := by
  refine ⟨?_, ?_, rfl⟩
  · rw [cleanStaleStates_snd]
    by_cases hdel :
        s.tabStates.any (fun p => isStaleEntry timeout now p.2) = true
    · rw [if_pos hdel]
      exact emit_aux
    · rw [if_neg hdel]
      have hfst : (cleanStaleStates timeout now s).1 = s := by
        rw [cleanStaleStates_fst, if_neg hdel]
      rw [hfst]
      simp
  · have hsnd : (updateStep now tabId st s).2 =
        if serializeState (getCurrentState s)
            ≠ serializeState (getCurrentState (updateStep now tabId st s).1)
        then [getCurrentState (updateStep now tabId st s).1] else [] := rfl
    rw [hsnd]
    exact emit_aux

/-- C9: the reconciler invariant — `activeMeetingTabId` is `null` or the
id of a currently stored tab state whose report has `in_meeting` — holds
for the initial empty storage and is preserved by `_cleanStaleStates`,
`updateTabState` and `init`; consequently `getCurrentState` returns
either a stored in-meeting report or the `NULL_STATE` sentinel. -/
theorem active_meeting_tab_invariant (timeout now tabId : Nat)
    (st : MeetingState) (s : StorageData) (h : ReconInv s) :
    ReconInv emptyStorage ∧
    ReconInv (cleanStaleStates timeout now s).1 ∧
    ReconInv (updateTabState timeout now tabId st s).1 ∧
    ReconInv (initManager timeout now s).1 ∧
    (getCurrentState s = NULL_STATE ∨
      ∃ id e, lookupTab s.tabStates id = some e ∧
        e.state.in_meeting = true ∧ getCurrentState s = e.state) :=
  ⟨reconInv_empty,
   reconInv_clean timeout now h,
   reconInv_updateTabState timeout now tabId st h,
   reconInv_clean timeout now h,
   getCurrentState_cases h⟩

/-- Witness for the C9 theorem at the concrete two-instance store. -/
theorem active_meeting_tab_invariant_witness :
    ReconInv (updateTabState 60000 1002 4 sampleActiveState sampleStore2).1 :=
  (active_meeting_tab_invariant 60000 1002 4 sampleActiveState sampleStore2
    reconInv_sampleStore2).2.2.1

/-! Embedding of `AuthManager.signMessage` (auth-manager.js).
ECDSA P-256 signing via WebCrypto is outside a shallow embedding; a
signature value is therefore represented by the signing key together with
the exact bytes that were signed, which is what the claims about the
token's signed body quantify over. -/

/-- An ECDSA signature: the signing key paired with the exact signed
bytes. -/
structure EcdsaSignature where
  key : String
  signedBody : String
deriving DecidableEq, Repr

/-- `crypto.subtle.sign` with the ECDSA/SHA-256 parameters of
`signMessage`. -/
def cryptoSubtleSign (key : String) (body : String) : EcdsaSignature :=
  ⟨key, body⟩

/-- The base64 alphabet (RFC 4648). -/
def base64Alphabet : List Char :=
  "ABCDEFGHIJKLMNOPQRSTUVWXYZabcdefghijklmnopqrstuvwxyz0123456789+/".toList

/-- The base64 digit for a 6-bit value. -/
def b64Char (n : Nat) : Char := base64Alphabet.getD n '?'

/-- Base64 encoding of a byte list, three bytes at a time, with `=`
padding. -/
def base64Encode : List Nat → String
  | [] => ""
  | [a] =>
    String.mk [b64Char (a / 4), b64Char (a % 4 * 16)] ++ "=="
  | [a, b] =>
    String.mk [b64Char (a / 4), b64Char (a % 4 * 16 + b / 16),
               b64Char (b % 16 * 4)] ++ "="
  | a :: b :: c :: rest =>
    String.mk [b64Char (a / 4), b64Char (a % 4 * 16 + b / 16),
               b64Char (b % 16 * 4 + c / 64), b64Char (c % 64)]
      ++ base64Encode rest

/-- `btoa`: string (code points below 256, which covers the JSON the
client serializes) to base64. -/
def btoa (s : String) : String :=
  base64Encode (s.toList.map Char.toNat)

/-- `_base64UrlEncode` (lines 352-373): base64, then `+`→`-`, `/`→`_`,
and trailing `=` stripped. -/
def base64UrlEncode (s : String) : String :=
  let urlSafe := (btoa s).toList.map
    (fun c => if c = '+' then '-' else if c = '/' then '_' else c)
  String.mk (urlSafe.reverse.dropWhile (fun c => c = '=')).reverse

/-- JavaScript object-literal update `{...m, k: v}` restricted to one key:
overrides the value at an existing key in place, otherwise appends the
key at the end. -/
def jsSetField : List (String × Jval) → String → Jval → List (String × Jval)
  | [], k, v => [(k, v)]
  | (k', v') :: rest, k, v =>
    if k' = k then (k, v) :: rest else (k', v') :: jsSetField rest k v

/-- Property access `m[k]` on a JSON object. -/
def jsLookup : List (String × Jval) → String → Option Jval
  | [], _ => none
  | (k', v') :: rest, k => if k' = k then some v' else jsLookup rest k

/-- The JWT header built by `signMessage` (lines 246-249). -/
def jwtHeader : List (String × Jval) :=
  [("alg", .jstr "ES256"), ("typ", .jstr "JWT")]

/-- `AuthManager` state relevant to signing: the loaded private key
(`null` before `initialize` or when no key could be loaded) and the
stable instance id. -/
structure AuthManagerState where
  privateKey : Option String
  instanceId : String
deriving DecidableEq, Repr

/-- The JWS token built by `signMessage`. The compact form returned by
the source is `encodedHeader ++ "." ++ encodedPayload ++ "." ++ encoded
signature`; the raw ECDSA signature bytes are abstract here, so the token
keeps its parts. -/
structure JwsToken where
  fullPayload : List (String × Jval)
  encodedHeader : String
  encodedPayload : String
  signature : EcdsaSignature

/-- `AuthManager.signMessage` (lines 232-275). `now` is `Date.now()` in
milliseconds; the source reads the clock twice in immediate succession
for `iat` and `exp`, modelled as one instant. Throws
`No private key available` when no private key is loaded. -/
def signMessage (auth : AuthManagerState) (now : Nat)
    (payload : List (String × Jval)) : Except String JwsToken :=
  match auth.privateKey with
  | none => .error "No private key available"
  | some key =>
    let iatV : Nat := now / 1000
    let expV : Nat := now / 1000 + 300
    let fullPayload :=
      jsSetField (jsSetField (jsSetField payload "iat" (.jnum iatV))
        "exp" (.jnum expV)) "instance_id" (.jstr auth.instanceId)
    let encodedHeader := base64UrlEncode (jstringify (.jobj jwtHeader))
    let encodedPayload := base64UrlEncode (jstringify (.jobj fullPayload))
    let signatureInput := encodedHeader ++ "." ++ encodedPayload
    .ok ⟨fullPayload, encodedHeader, encodedPayload,
         cryptoSubtleSign key signatureInput⟩

theorem jsLookup_setField_self (m : List (String × Jval)) (k : String)
    (v : Jval) : jsLookup (jsSetField m k v) k = some v := by
  induction m with
  | nil => simp [jsSetField, jsLookup]
  | cons p rest ih =>
    obtain ⟨k', v'⟩ := p
    by_cases hk : k' = k
    · subst hk
      simp [jsSetField, jsLookup]
    · simpa [jsSetField, jsLookup, hk] using ih

theorem jsLookup_setField_ne (m : List (String × Jval)) (k k' : String)
    (hne : k ≠ k') (v : Jval) :
    jsLookup (jsSetField m k v) k' = jsLookup m k' := by
  induction m with
  | nil => simp [jsSetField, jsLookup, hne]
  | cons p rest ih =>
    obtain ⟨k0, v0⟩ := p
    by_cases hk : k0 = k
    · subst hk
      simp [jsSetField, jsLookup, hne]
    · by_cases hk' : k0 = k'
      · subst hk'
        simp [jsSetField, jsLookup, hk]
      · simpa [jsSetField, jsLookup, hk, hk'] using ih

/-- C5: every payload signed with a loaded private key yields a token
whose `iat` is the current time (in seconds), whose `exp` is `iat` plus
the fixed 300-second TTL, which carries the instance id, and whose signed
body is exactly the encoded header-dot-payload signed with the instance's
private key. -/
theorem sign_message_token_contents (key instId : String) (now : Nat)
    (payload : List (String × Jval)) :
    ∃ t, signMessage ⟨some key, instId⟩ now payload = .ok t ∧
      jsLookup t.fullPayload "iat" = some (.jnum (now / 1000)) ∧
      jsLookup t.fullPayload "exp" = some (.jnum (now / 1000 + 300)) ∧
      jsLookup t.fullPayload "instance_id" = some (.jstr instId) ∧
      t.signature
        = cryptoSubtleSign key (t.encodedHeader ++ "." ++ t.encodedPayload) ∧
      t.encodedHeader = base64UrlEncode (jstringify (.jobj jwtHeader)) ∧
      t.encodedPayload = base64UrlEncode (jstringify (.jobj t.fullPayload)) := by
  refine ⟨_, rfl, ?_, ?_, ?_, rfl, rfl, rfl⟩
  · rw [jsLookup_setField_ne _ _ _ (by decide) _,
        jsLookup_setField_ne _ _ _ (by decide) _]
    exact jsLookup_setField_self _ _ _
  · rw [jsLookup_setField_ne _ _ _ (by decide) _]
    exact jsLookup_setField_self _ _ _
  · exact jsLookup_setField_self _ _ _

/-- C8: signing without a loaded private key throws
`No private key available` and never returns a token. -/
theorem sign_message_requires_key (instId : String) (now : Nat)
    (payload : List (String × Jval)) :
    signMessage ⟨none, instId⟩ now payload = .error "No private key available"
    ∧ ∀ t, signMessage ⟨none, instId⟩ now payload ≠ .ok t :=
  ⟨rfl, fun _ h => by simp [signMessage] at h⟩

/-! Embedding of `PairingManager` and `StreamControllerClient`
(auth-manager.js after the AuthManager class, and pairing-manager.js). -/

/-- The pairing phase, `PairingManager.state`. -/
inductive PairingState where
  | unauthorized
  | pending
  | authorized
deriving DecidableEq, Repr

/-- `PairingManager.isAuthorized`: `this.state === 'authorized'`. -/
def isAuthorized (p : PairingState) : Bool := p = .authorized

/-- Events emitted by `PairingManager.handleMessage`. -/
inductive PairingEvent where
  | pAuthorized
  | pPending
  | pDenied
  | pTimeout
deriving DecidableEq, Repr

/-- Inbound server frames dispatched by
`StreamControllerClient._handleServerMessage`. -/
inductive ServerMessage where
  | command (action : String) (data : Jval)
  | error (error_code : String) (message : String)
  | heartbeat_ack
  | handshake_success
  | handshake_pending
  | handshake_denied
  | handshake_timeout
  | unknown (msgType : String)

/-- Events `StreamControllerClient` emits to its registered handlers. -/
inductive ClientEvent where
  | commandEvent (action : String) (data : Jval)
  | errorEvent (message : String)
  | pairingRequired
  | connected
  | disconnected (reason : String)

/-- The browser's interval-timer registry as the client sees it:
`setInterval` returns a fresh handle and registers it, `clearInterval`
deregisters one. -/
structure TimerSystem where
  nextId : Nat
  active : List Nat
deriving DecidableEq, Repr

/-- `setInterval`: allocate and register a fresh timer handle. -/
def setIntervalTimer (t : TimerSystem) : Nat × TimerSystem :=
  (t.nextId, ⟨t.nextId + 1, t.nextId :: t.active⟩)

/-- `clearInterval`: deregister a timer handle. -/
def clearIntervalTimer (t : TimerSystem) (id : Nat) : TimerSystem :=
  ⟨t.nextId, t.active.erase id⟩

/-- The `StreamControllerClient` state relevant to message handling:
pairing phase, the stored `heartbeatTimer` handle, the interval timers
the client created, and whether the WebSocket is open. -/
structure ClientState where
  pairing : PairingState
  heartbeatTimer : Option Nat
  timers : TimerSystem
  wsConnected : Bool
deriving DecidableEq, Repr

/-- `_startHeartbeat` (lines 674-699): a no-op when `heartbeatTimer` is
already set, otherwise registers a new interval timer and stores its
handle. -/
def startHeartbeat (c : ClientState) : ClientState :=
  match c.heartbeatTimer with
  | some _ => c
  | none =>
    let r := setIntervalTimer c.timers
    { c with heartbeatTimer := some r.1, timers := r.2 }

/-- `_stopHeartbeat` (lines 705-711): clears the stored interval timer,
if any, and forgets its handle. -/
def stopHeartbeat (c : ClientState) : ClientState :=
  match c.heartbeatTimer with
  | some id =>
    { c with heartbeatTimer := none, timers := clearIntervalTimer c.timers id }
  | none => c

/-- `PairingManager.handleMessage`: handshake replies update the phase
and emit the matching pairing event; other frames are ignored. -/
def pairingHandleMessage (p : PairingState) (m : ServerMessage) :
    PairingState × List PairingEvent :=
  match m with
  | .handshake_success => (.authorized, [.pAuthorized])
  | .handshake_pending => (.pending, [.pPending])
  | .handshake_denied => (.unauthorized, [.pDenied])
  | .handshake_timeout => (.unauthorized, [.pTimeout])
  | _ => (p, [])

/-- `_onPairingAuthorized` (lines 583-591): start the heartbeat and emit
`connected`. -/
def onPairingAuthorized (c : ClientState) : ClientState × List ClientEvent :=
  (startHeartbeat c, [.connected])

/-- The client's reactions to pairing events, wired in
`_setupEventHandlers` (lines 534-543). -/
def reactToPairingEvent (c : ClientState) :
    PairingEvent → ClientState × List ClientEvent
  | .pAuthorized => onPairingAuthorized c
  | .pPending => (c, [.pairingRequired])
  | .pDenied => (c, [.errorEvent "Pairing denied by user"])
  | .pTimeout => (c, [.errorEvent "Pairing request timed out"])

/-- Sequential reaction to a list of pairing events. -/
def reactToPairingEvents (c : ClientState) :
    List PairingEvent → ClientState × List ClientEvent
  | [] => (c, [])
  | e :: rest =>
    let r := reactToPairingEvent c e
    let r' := reactToPairingEvents r.1 rest
    (r'.1, r.2 ++ r'.2)

/-- `PairingManager.authenticate`: sends the handshake frame over the
WebSocket and moves the phase to `pending`; when the socket is closed,
`ws.send` throws first and the phase is left as it was. -/
def authenticate (c : ClientState) : ClientState × List String :=
  if c.wsConnected then ({ c with pairing := .pending }, ["handshake"])
  else (c, [])

/-- `_onWebSocketDisconnected` (lines 566-577): stop the heartbeat, mark
the pairing unauthorized, emit `disconnected`. The handler runs on the
transport's close event, so the connected flag is down. -/
def onWebSocketDisconnected (c : ClientState) (reason : String) :
    ClientState × List ClientEvent :=
  let c1 := stopHeartbeat c
  ({ c1 with pairing := .unauthorized, wsConnected := false },
   [.disconnected reason])

/-- `_handleServerMessage` (lines 598-626) together with
`_handleServerError` (lines 633-650): `command` frames are emitted to the
command handlers unconditionally; `error` frames with `not_authorized` or
`invalid_signature` mark the pairing unauthorized, stop the heartbeat and
re-authenticate, other errors are emitted; `heartbeat_ack` does nothing;
handshake replies go to the pairing manager, whose events the client
reacts to; unknown types are only logged. Returns the new client state,
the events emitted to consumers, and the outbound frame types handed to
the WebSocket. -/
def handleServerMessage (c : ClientState) (m : ServerMessage) :
    ClientState × List ClientEvent × List String :=
  match m with
  | .command action data => (c, ([.commandEvent action data], []))
  | .error code msg =>
    if code = "not_authorized" ∨ code = "invalid_signature" then
      let c1 := stopHeartbeat { c with pairing := .unauthorized }
      let r := authenticate c1
      (r.1, ([], r.2))
    else (c, ([.errorEvent ("Server error: " ++ msg)], []))
  | .heartbeat_ack => (c, ([], []))
  | .handshake_success | .handshake_pending | .handshake_denied
  | .handshake_timeout =>
    let r := pairingHandleMessage c.pairing m
    let r' := reactToPairingEvents { c with pairing := r.1 } r.2
    (r'.1, (r'.2, []))
  | .unknown _ => (c, ([], []))

/-- The outbound frame `_createSignedMessage` (lines 658-668) builds. -/
structure OutMessage where
  type : String
  extension_id : String
  instance_id : String
  data : Jval
  token : JwsToken

/-- `_createSignedMessage` (lines 658-668): sign the payload and attach
the envelope fields. -/
def createSignedMessage (auth : AuthManagerState) (now : Nat)
    (extensionId : String) (payloadType : String) (payloadData : Jval) :
    Except String OutMessage :=
  (signMessage auth now
      [("type", .jstr payloadType), ("data", payloadData)]).map
    fun t => ⟨payloadType, extensionId, auth.instanceId, payloadData, t⟩

/-- `sendState` (lines 440-452): throws `Not authorized. Pairing
required.` unless the pairing phase is authorized; otherwise builds the
signed state frame and hands it to `ws.send`, which throws when the
socket is closed. The result pairs the thrown-or-ok outcome with the
list of frames actually handed to the transport. -/
def sendState (pairing : PairingState) (auth : AuthManagerState)
    (wsConnected : Bool) (now : Nat) (extensionId : String)
    (stateData : Jval) : Except String Unit × List OutMessage :=
  if !isAuthorized pairing then
    (.error "Not authorized. Pairing required.", [])
  else
    match createSignedMessage auth now extensionId "state" stateData with
    | .error e => (.error e, [])
    | .ok msg =>
      if wsConnected then (.ok (), [msg])
      else (.error "WebSocket not connected", [])

/-- C2, counterexample: a `command` frame arriving while the pairing
phase is `unauthorized` is not dropped — `_handleServerMessage` emits it
to the command handlers immediately. -/
theorem command_before_authorization_counterexample :
    (handleServerMessage ⟨.unauthorized, none, ⟨0, []⟩, true⟩
        (.command "toggle-mic" .jnull)).2.1
      = [.commandEvent "toggle-mic" .jnull]
    ∧ ([ClientEvent.commandEvent "toggle-mic" .jnull] : List ClientEvent)
        ≠ [] :=
  ⟨rfl, by simp⟩

/-- C2 (amended): `_handleServerMessage` delivers every inbound `command`
frame to the command handlers immediately and unconditionally — in every
pairing phase, including before authorization — leaving the client state
unchanged and sending nothing; it never queues commands (so no stored
command can fire after a later authorization), but it does not drop or
gate them either. -/
theorem command_frames_delivered_immediately (c : ClientState)
    (action : String) (data : Jval) :
    handleServerMessage c (.command action data)
      = (c, ([.commandEvent action data], [])) := rfl

/-- C6: `sendState` fails with the `Not authorized. Pairing required.`
error and hands nothing to the transport whenever the pairing phase is
not `authorized`; when it is `authorized`, the outcome is success exactly
when the signed state frame was handed to the open transport, and a
failed call never hands a frame over. -/
theorem send_state_requires_authorization (pairing : PairingState)
    (auth : AuthManagerState) (wsConn : Bool) (now : Nat) (extId : String)
    (st : Jval) :
    (pairing ≠ .authorized →
      sendState pairing auth wsConn now extId st
        = (.error "Not authorized. Pairing required.", [])) ∧
    (pairing = .authorized → ∀ msg,
      createSignedMessage auth now extId "state" st = .ok msg →
      sendState pairing auth wsConn now extId st
        = if wsConn then (.ok (), [msg])
          else (.error "WebSocket not connected", [])) ∧
    ((∃ e, (sendState pairing auth wsConn now extId st).1 = .error e)
        ∧ (sendState pairing auth wsConn now extId st).2 = []
      ∨ (sendState pairing auth wsConn now extId st).1 = .ok ()
        ∧ ∃ msg, (sendState pairing auth wsConn now extId st).2 = [msg]) := by
  refine ⟨?_, ?_, ?_⟩
  · intro h
    have hi : isAuthorized pairing = false := by
      simp [isAuthorized, h]
    simp [sendState, hi]
  · intro h msg hmsg
    subst h
    simp [sendState, isAuthorized, hmsg]
  · by_cases hi : isAuthorized pairing = true
    · cases hmsg : createSignedMessage auth now extId "state" st with
      | error e' =>
        have hval : sendState pairing auth wsConn now extId st
            = (.error e', []) := by simp [sendState, hi, hmsg]
        rw [hval]
        exact Or.inl ⟨⟨e', rfl⟩, rfl⟩
      | ok msg =>
        cases wsConn with
        | false =>
          have hval : sendState pairing auth false now extId st
              = (.error "WebSocket not connected", []) := by
            simp [sendState, hi, hmsg]
          rw [hval]
          exact Or.inl ⟨⟨_, rfl⟩, rfl⟩
        | true =>
          have hval : sendState pairing auth true now extId st
              = (.ok (), [msg]) := by simp [sendState, hi, hmsg]
          rw [hval]
          exact Or.inr ⟨rfl, msg, rfl⟩
    · have hi' : isAuthorized pairing = false := by simpa using hi
      have hval : sendState pairing auth wsConn now extId st
          = (.error "Not authorized. Pairing required.", []) := by
        simp [sendState, hi']
      rw [hval]
      exact Or.inl ⟨⟨_, rfl⟩, rfl⟩

/-- Witness for the C6 theorem: a pending client's `sendState` throws
and hands nothing to the transport. -/
theorem send_state_requires_authorization_witness :
    sendState .pending ⟨some "key-1", "inst-1"⟩ true 1700000000000 "ext-1"
        .jnull
      = (.error "Not authorized. Pairing required.", []) :=
  (send_state_requires_authorization .pending ⟨some "key-1", "inst-1"⟩ true
    1700000000000 "ext-1" .jnull).1 (by decide)

/-- The heartbeat-timer invariant: the interval timers the client holds
are exactly the stored `heartbeatTimer` handle (so never more than one),
and every registered handle was allocated before `nextId`. -/
def HeartbeatInv (c : ClientState) : Prop :=
  c.timers.active = c.heartbeatTimer.toList ∧
    ∀ id ∈ c.timers.active, id < c.timers.nextId

theorem startHeartbeat_idem (c : ClientState) :
    startHeartbeat (startHeartbeat c) = startHeartbeat c := by
  cases hhb : c.heartbeatTimer with
  | some id => simp [startHeartbeat, hhb]
  | none => simp [startHeartbeat, hhb, setIntervalTimer]

theorem startHeartbeat_inv {c : ClientState} (h : HeartbeatInv c) :
    HeartbeatInv (startHeartbeat c) := by
  obtain ⟨hact, hbound⟩ := h
  cases hhb : c.heartbeatTimer with
  | some id =>
    have hse : startHeartbeat c = c := by simp [startHeartbeat, hhb]
    rw [hse]
    exact ⟨hact, hbound⟩
  | none =>
    have hnil : c.timers.active = [] := by rw [hact, hhb]; rfl
    refine ⟨?_, ?_⟩
    · simp [startHeartbeat, hhb, setIntervalTimer, hnil]
    · intro id hid
      simp only [startHeartbeat, hhb, setIntervalTimer, hnil] at hid ⊢
      simp at hid
      omega

theorem stopHeartbeat_clears {c : ClientState} (h : HeartbeatInv c) :
    (stopHeartbeat c).heartbeatTimer = none ∧
    (stopHeartbeat c).timers.active = [] := by
  obtain ⟨hact, -⟩ := h
  cases hhb : c.heartbeatTimer with
  | none =>
    have hnil : c.timers.active = [] := by rw [hact, hhb]; rfl
    simp [stopHeartbeat, hhb, hnil]
  | some id =>
    have hone : c.timers.active = [id] := by rw [hact, hhb]; rfl
    simp [stopHeartbeat, hhb, clearIntervalTimer, hone]

theorem stopHeartbeat_inv {c : ClientState} (h : HeartbeatInv c) :
    HeartbeatInv (stopHeartbeat c) := by
  obtain ⟨h1, h2⟩ := stopHeartbeat_clears h
  refine ⟨by rw [h2, h1]; rfl, ?_⟩
  intro id hid
  rw [h2] at hid
  simp at hid

/-- C10: the client never holds more than one heartbeat interval:
`_startHeartbeat` while one is running is a no-op (so repeated
`authorized` events never multiply heartbeat emission), `_stopHeartbeat`
clears the stored timer entirely, and after the disconnect handler no
heartbeat timer remains. -/
theorem single_heartbeat_timer (c : ClientState) (reason : String)
    (h : HeartbeatInv c) :
    HeartbeatInv (startHeartbeat c) ∧
    HeartbeatInv (stopHeartbeat c) ∧
    startHeartbeat (startHeartbeat c) = startHeartbeat c ∧
    (startHeartbeat c).timers.active.length ≤ 1 ∧
    (stopHeartbeat c).heartbeatTimer = none ∧
    (stopHeartbeat c).timers.active = [] ∧
    (onWebSocketDisconnected c reason).1.timers.active = [] ∧
    (onWebSocketDisconnected c reason).1.heartbeatTimer = none ∧
    HeartbeatInv (onPairingAuthorized c).1 := by
  obtain ⟨hs1, hs2⟩ := stopHeartbeat_clears h
  have hstart := startHeartbeat_inv h
  refine ⟨hstart, stopHeartbeat_inv h, startHeartbeat_idem c, ?_, hs1, hs2,
    ?_, ?_, hstart⟩
  · rw [hstart.1]
    cases (startHeartbeat c).heartbeatTimer <;> simp
  · simp [onWebSocketDisconnected, hs2]
  · simp [onWebSocketDisconnected, hs1]

/-- Witness for the C10 theorem at a fresh authorized client. -/
theorem single_heartbeat_timer_witness :
    (stopHeartbeat
        (⟨.authorized, none, ⟨0, []⟩, true⟩ : ClientState)).timers.active
      = [] :=
  (single_heartbeat_timer ⟨.authorized, none, ⟨0, []⟩, true⟩ "closed"
    ⟨rfl, by simp⟩).2.2.2.2.2.1

/-- Witness for the C7 theorem: `updateTabState` events decompose into
the sweep's events followed by the update step's events at a concrete
store. -/
theorem emit_iff_serialized_changed_witness :
    (updateTabState 60000 1002 4 sampleActiveState sampleStore2).2
      = (cleanStaleStates 60000 1002 sampleStore2).2
        ++ (updateStep 1002 4 sampleActiveState
            (cleanStaleStates 60000 1002 sampleStore2).1).2 :=
  (emit_iff_serialized_changed 60000 1002 4 sampleActiveState sampleStore2).2.2

end GoogleMeetPlugin
